import Mathlib

/- Shallow embedding of the treatment/alarm lifecycle and access-control core of
   the medical treatment-management backend (FastAPI service layer over a
   relational store).  Rows are Lean structures, tables are lists of rows,
   calendar dates are integer day ordinals, timestamps are natural-number
   ticks, and each service/endpoint function of the source becomes a pure
   function on a `DB` value.  Fallible operations return `Except`; handlers
   that mutate return the new `DB` paired with the outcome. -/

namespace MedApi

inductive UserRole where
  | admin
  | caregiver
  | patient
deriving DecidableEq, Repr

/-- `app/models/user.py` `User` row (columns not consulted by the verified
    operations are omitted). -/
structure User where
  id : Nat
  role : UserRole
  is_active : Bool
deriving DecidableEq, Repr

/-- `User.is_admin` property from `app/models/user.py`. -/
def User.is_admin (u : User) : Bool := u.role == .admin

/-- `app/models/patient.py` `Patient` row: `caregiver_id` is the non-nullable
    foreign key to the owning caregiver `User`. -/
structure Patient where
  id : Nat
  email : String
  caregiver_id : Nat
deriving DecidableEq, Repr

/-- `app/models/medication.py` `Medication` row (only the primary key matters
    to the verified operations). -/
structure Medication where
  id : Nat
deriving DecidableEq, Repr

/-- `app/models/treatment.py` `TreatmentStatus` enum. -/
inductive TreatmentStatus where
  | active
  | completed
  | suspended
  | cancelled
deriving DecidableEq, Repr

/-- `app/models/treatment.py` `Treatment` row.  `start_date`/`end_date` are
    day ordinals (`Date` columns), `updated_at` a timestamp tick. -/
structure Treatment where
  id : Nat
  patient_id : Nat
  medication_id : Nat
  created_by_id : Nat
  dosage : String
  frequency : Nat
  duration_days : Nat
  start_date : Int
  end_date : Int
  instructions : Option String
  notes : Option String
  status : TreatmentStatus
  updated_at : Nat
deriving DecidableEq, Repr

/-- `app/models/alarm.py` `Alarm` row.  The nullable boolean columns default
    to true at creation in every code path embedded here, so they are plain
    `Bool` fields. -/
structure Alarm where
  id : Nat
  treatment_id : Nat
  time : String
  is_active : Bool
  sound_enabled : Bool
  visual_enabled : Bool
  description : String
deriving DecidableEq, Repr

/-- Database state: one list per table, the autoincrement counters, the
    current date (`date.today()`) and the current timestamp tick
    (`datetime.utcnow()`). -/
structure DB where
  patients : List Patient
  medications : List Medication
  treatments : List Treatment
  alarms : List Alarm
  nextTreatmentId : Nat
  nextAlarmId : Nat
  today : Int
  now : Nat
deriving DecidableEq, Repr

/-- Error outcomes of the embedded handlers, named after the situations in
    which the source raises them (HTTP 401/403/404/400 and the pydantic
    validation failure). -/
inductive FieldError where
  | invalidDateRange
  | dosageRequired
  | frequencyOutOfRange
  | durationOutOfRange
deriving DecidableEq, Repr

inductive ApiError where
  | unauthorized
  | forbidden
  | notFound
  | badRequest
  | dependentResourceExists
  | medicationNotFound
  | validation (errs : List FieldError)
deriving DecidableEq, Repr

/-- Errors raised (as `ValueError`) by the alarm methods of
    `TreatmentService`. -/
inductive AlarmError where
  | treatmentMissing
  | timeRequired
  | invalidTimeFormat
  | alarmNotFound
deriving DecidableEq, Repr

/- ===== Access control (`app/core/dependencies.py`) ===== -/

/-- The join `db.query(Treatment).join(Patient).filter(Treatment.id ==
    treatment_id, Patient.caregiver_id == current_user.id).first()` from
    `verify_treatment_access`: the first treatment row whose id matches and
    whose patient row belongs to the given caregiver. -/
def ownedTreatmentRow (db : DB) (caregiverId tid : Nat) : Option Treatment :=
  db.treatments.find? (fun t =>
    t.id == tid &&
      db.patients.any (fun p => p.id == t.patient_id && p.caregiver_id == caregiverId))

/-- `verify_treatment_access` from `app/core/dependencies.py`: admins pass,
    caregivers pass only when the ownership chain resolves, everyone else
    (and every caregiver without the chain) gets HTTP 403. -/
def verify_treatment_access (db : DB) (u : User) (tid : Nat) : Except ApiError Bool :=
  if u.is_admin then .ok true
  else if u.role == .caregiver then
    match ownedTreatmentRow db u.id tid with
    | some _ => .ok true
    | none => .error .forbidden
  else .error .forbidden

/- ===== Treatment service (`app/services/treatment_service.py`) ===== -/

/-- `TreatmentService.get_treatment_by_id`. -/
def get_treatment_by_id (db : DB) (tid : Nat) : Option Treatment :=
  db.treatments.find? (fun t => t.id == tid)

/-- Applying an in-place row mutation followed by commit: the row with the
    given id is replaced by `f` of itself. -/
def setTreatmentRow (db : DB) (tid : Nat) (f : Treatment → Treatment) : DB :=
  { db with treatments := db.treatments.map (fun t => if t.id == tid then f t else t) }

/-- Python truthiness of the nullable `notes` text column (`None` and the
    empty string are falsy). -/
def notesTruthy : Option String → Bool
  | none => false
  | some s => !(s == "")

/-- The `if treatment.notes: treatment.notes += "\n" + entry else:
    treatment.notes = entry` pattern of `suspend_treatment` /
    `complete_treatment`. -/
def appendNote (notes : Option String) (entry : String) : Option String :=
  if notesTruthy notes then some (notes.getD "" ++ "\n" ++ entry) else some entry

/-- `TreatmentService.activate_treatment`: unconditionally sets the status to
    ACTIVE whenever the row exists. -/
def activate_treatment (db : DB) (tid : Nat) : DB × Bool :=
  match get_treatment_by_id db tid with
  | none => (db, false)
  | some _ =>
      (setTreatmentRow db tid (fun t => { t with status := .active, updated_at := db.now }),
        true)

/-- `TreatmentService.suspend_treatment`: sets SUSPENDED and appends the
    reason to `notes`. -/
def suspend_treatment (db : DB) (tid : Nat) (reason : String) : DB × Bool :=
  match get_treatment_by_id db tid with
  | none => (db, false)
  | some _ =>
      (setTreatmentRow db tid (fun t =>
        { t with status := .suspended,
                 notes := appendNote t.notes ("Suspendido: " ++ reason),
                 updated_at := db.now }), true)

/-- `TreatmentService.complete_treatment`: sets COMPLETED and appends the
    optional notes when truthy. -/
def complete_treatment (db : DB) (tid : Nat) (notes : Option String) : DB × Bool :=
  match get_treatment_by_id db tid with
  | none => (db, false)
  | some _ =>
      (setTreatmentRow db tid (fun t =>
        { t with status := .completed,
                 notes := if notesTruthy notes
                          then appendNote t.notes ("Completado: " ++ notes.getD "")
                          else t.notes,
                 updated_at := db.now }), true)

/-- `TreatmentService.cancel_treatment`: sets CANCELLED, never removes the
    row. -/
def cancel_treatment (db : DB) (tid : Nat) : DB × Bool :=
  match get_treatment_by_id db tid with
  | none => (db, false)
  | some _ =>
      (setTreatmentRow db tid (fun t => { t with status := .cancelled, updated_at := db.now }),
        true)

/- ===== Treatment endpoints (`app/api/treatments.py`) ===== -/

/-- `DELETE /treatments/{id}`: 404 when absent, otherwise
    `cancel_treatment` (soft delete). -/
def delete_treatment_endpoint (db : DB) (tid : Nat) : DB × Except ApiError String :=
  match get_treatment_by_id db tid with
  | none => (db, .error .notFound)
  | some _ =>
      let r := cancel_treatment db tid
      (r.fst, .ok "Tratamiento cancelado exitosamente")

/-- `POST /treatments/{id}/activate`: 400 when the service reports failure
    (row absent), success message otherwise. -/
def activate_treatment_endpoint (db : DB) (tid : Nat) : DB × Except ApiError String :=
  let r := activate_treatment db tid
  if r.snd then (r.fst, .ok "Tratamiento activado exitosamente")
  else (r.fst, .error .badRequest)

/- ===== Row-lookup helper lemmas ===== -/

theorem find_map_update (l : List Treatment) (tid : Nat) (f : Treatment → Treatment)
    (hf : ∀ t, (f t).id = t.id) :
    (l.map (fun t => if t.id == tid then f t else t)).find? (fun t => t.id == tid)
      = (l.find? (fun t => t.id == tid)).map f := by
  induction l with
  | nil => rfl
  | cons a l ih =>
    cases h : (a.id == tid) with
    | true =>
      have hfa : ((f a).id == tid) = true := by
        rw [hf a]; exact h
      rw [List.map_cons, if_pos h]
      simp only [List.find?, hfa, h]
      rfl
    | false =>
      have hfa : ((f a).id == tid) = false := by
        rw [hf a]; exact h
      rw [List.map_cons, if_neg (by simp [h])]
      simp only [List.find?, hfa, h]
      exact ih

theorem get_setTreatmentRow (db : DB) (tid : Nat) (f : Treatment → Treatment)
    (hf : ∀ t, (f t).id = t.id) :
    get_treatment_by_id (setTreatmentRow db tid f) tid
      = (get_treatment_by_id db tid).map f := by
  unfold get_treatment_by_id setTreatmentRow
  exact find_map_update db.treatments tid f hf

/- ===== Concrete sample rows for witnesses and counterexamples ===== -/

def adminUser : User := { id := 10, role := .admin, is_active := true }

def careUserA : User := { id := 20, role := .caregiver, is_active := true }

def careUserB : User := { id := 21, role := .caregiver, is_active := true }

def patientP1 : Patient := { id := 1, email := "a@x.com", caregiver_id := 20 }

def patientP2 : Patient := { id := 2, email := "b@x.com", caregiver_id := 20 }

def treatmentT1 : Treatment :=
  { id := 1, patient_id := 1, medication_id := 5, created_by_id := 20,
    dosage := "500mg", frequency := 2, duration_days := 10,
    start_date := 0, end_date := 9,
    instructions := none, notes := none,
    status := .completed, updated_at := 0 }

def treatmentT2 : Treatment :=
  { treatmentT1 with id := 2, status := .active }

def dbSample : DB :=
  { patients := [patientP1, patientP2], medications := [{ id := 5 }],
    treatments := [treatmentT1, treatmentT2], alarms := [],
    nextTreatmentId := 3, nextAlarmId := 1, today := 3, now := 7 }

/- ===== C1: ownership gate ===== -/

/-- C1: for a CAREGIVER identity and a treatment id with no
    Treatment→Patient chain whose `caregiver_id` equals the identity's id,
    the treatment-access check fails with Forbidden — never NotFound and
    never by returning data — while an ADMIN identity passes for every
    treatment id. -/
theorem treatment_access_caregiver_forbidden_admin_ok (db : DB) (u : User) (tid : Nat) :
    (u.role = .caregiver →
      (∀ t ∈ db.treatments, t.id = tid →
        ∀ p ∈ db.patients, p.id = t.patient_id → p.caregiver_id ≠ u.id) →
      verify_treatment_access db u tid = .error .forbidden)
    ∧ (u.role = .admin → verify_treatment_access db u tid = .ok true) := by
  constructor
  · intro hrole hno
    have hadm : u.is_admin = false := by
      unfold User.is_admin; rw [hrole]; rfl
    have hcg : (u.role == UserRole.caregiver) = true := by rw [hrole]; rfl
    have hfind : ownedTreatmentRow db u.id tid = none := by
      unfold ownedTreatmentRow
      rw [List.find?_eq_none]
      intro t ht hpred
      simp only [Bool.and_eq_true, beq_iff_eq, List.any_eq_true] at hpred
      obtain ⟨hid, p, hp, hpid, hcid⟩ := hpred
      exact hno t ht hid p hp hpid hcid
    simp [verify_treatment_access, hadm, hcg, hfind]
  · intro hrole
    simp [verify_treatment_access, User.is_admin, hrole]

/-- C1 witness: in the sample database caregiver 21 owns no patient, so it is
    Forbidden on treatment 1, while the admin passes even for the absent
    treatment id 99. -/
theorem treatment_access_caregiver_forbidden_admin_ok_witness :
    verify_treatment_access dbSample careUserB 1 = .error .forbidden ∧
    verify_treatment_access dbSample adminUser 99 = .ok true := by
  constructor
  · exact (treatment_access_caregiver_forbidden_admin_ok dbSample careUserB 1).1 rfl
      (by decide)
  · exact (treatment_access_caregiver_forbidden_admin_ok dbSample adminUser 99).2 rfl

/- ===== C2: the terminal-state claim fails ===== -/

/-- C2 counterexample: treatment 1 of the sample database is COMPLETED, yet
    `activate` succeeds on it and changes its status to ACTIVE, so COMPLETED
    is not a terminal state. -/
theorem completed_not_terminal_counterexample :
    treatmentT1.status = .completed ∧
    (activate_treatment dbSample 1).snd = true ∧
    (get_treatment_by_id (activate_treatment dbSample 1).fst 1).map Treatment.status
      = some .active := by
  exact ⟨rfl, rfl, rfl⟩

/-- C2 amended: COMPLETED and CANCELLED are not terminal.  Each lifecycle
    operation overwrites the status of any existing treatment
    unconditionally — activate sets ACTIVE, suspend sets SUSPENDED, complete
    sets COMPLETED and cancel sets CANCELLED — whatever the current status,
    including COMPLETED and CANCELLED. -/
theorem lifecycle_ops_set_status_unconditionally (db : DB) (tid : Nat) (t : Treatment)
    (ht : get_treatment_by_id db tid = some t) (reason : String) (notes : Option String) :
    (activate_treatment db tid).snd = true ∧
    (get_treatment_by_id (activate_treatment db tid).fst tid).map Treatment.status
      = some .active ∧
    (get_treatment_by_id (suspend_treatment db tid reason).fst tid).map Treatment.status
      = some .suspended ∧
    (get_treatment_by_id (complete_treatment db tid notes).fst tid).map Treatment.status
      = some .completed ∧
    (get_treatment_by_id (cancel_treatment db tid).fst tid).map Treatment.status
      = some .cancelled := by
  have key : ∀ f : Treatment → Treatment, (∀ s, (f s).id = s.id) →
      get_treatment_by_id (setTreatmentRow db tid f) tid = some (f t) := by
    intro f hf
    rw [get_setTreatmentRow db tid f hf, ht]
    rfl
  refine ⟨?_, ?_, ?_, ?_, ?_⟩
  · simp only [activate_treatment, ht]
  · simp only [activate_treatment, ht]
    rw [key (fun t => { t with status := TreatmentStatus.active, updated_at := db.now })
      (fun s => rfl)]
    rfl
  · simp only [suspend_treatment, ht]
    rw [key (fun t =>
      { t with status := TreatmentStatus.suspended,
               notes := appendNote t.notes ("Suspendido: " ++ reason),
               updated_at := db.now }) (fun s => rfl)]
    rfl
  · simp only [complete_treatment, ht]
    rw [key (fun t =>
      { t with status := TreatmentStatus.completed,
               notes := if notesTruthy notes
                        then appendNote t.notes ("Completado: " ++ notes.getD "")
                        else t.notes,
               updated_at := db.now }) (fun s => rfl)]
    rfl
  · simp only [cancel_treatment, ht]
    rw [key (fun t => { t with status := TreatmentStatus.cancelled, updated_at := db.now })
      (fun s => rfl)]
    rfl

/-- C2 amended witness: the operations overwrite the status of the COMPLETED
    sample treatment 1. -/
theorem lifecycle_ops_set_status_unconditionally_witness :
    (activate_treatment dbSample 1).snd = true ∧
    (get_treatment_by_id (activate_treatment dbSample 1).fst 1).map Treatment.status
      = some .active ∧
    (get_treatment_by_id (suspend_treatment dbSample 1 "r").fst 1).map Treatment.status
      = some .suspended ∧
    (get_treatment_by_id (complete_treatment dbSample 1 none).fst 1).map Treatment.status
      = some .completed ∧
    (get_treatment_by_id (cancel_treatment dbSample 1).fst 1).map Treatment.status
      = some .cancelled :=
  lifecycle_ops_set_status_unconditionally dbSample 1 treatmentT1 rfl "r" none

/- ===== C8: activate is idempotent on ACTIVE treatments ===== -/

/-- C8: calling `activate` on an already-ACTIVE treatment succeeds — the
    service reports success and the endpoint answers with the success
    message, not an error — and the stored row keeps status ACTIVE with
    every field except the update timestamp unchanged. -/
theorem activate_idempotent_on_active (db : DB) (tid : Nat) (t : Treatment)
    (ht : get_treatment_by_id db tid = some t) (hstat : t.status = .active) :
    (activate_treatment db tid).snd = true ∧
    (activate_treatment_endpoint db tid).snd = .ok "Tratamiento activado exitosamente" ∧
    get_treatment_by_id (activate_treatment db tid).fst tid
      = some { t with updated_at := db.now } := by
  have hsnd : (activate_treatment db tid).snd = true := by
    simp only [activate_treatment, ht]
  refine ⟨hsnd, ?_, ?_⟩
  · simp [activate_treatment_endpoint, hsnd]
  · simp only [activate_treatment, ht]
    rw [get_setTreatmentRow db tid
      (fun t => { t with status := TreatmentStatus.active, updated_at := db.now })
      (fun s => rfl), ht, ← hstat]
    rfl

/-- C8 witness: treatment 2 of the sample database is ACTIVE and `activate`
    is idempotent on it. -/
theorem activate_idempotent_on_active_witness :
    (activate_treatment dbSample 2).snd = true ∧
    (activate_treatment_endpoint dbSample 2).snd = .ok "Tratamiento activado exitosamente" ∧
    get_treatment_by_id (activate_treatment dbSample 2).fst 2
      = some { treatmentT2 with updated_at := dbSample.now } :=
  activate_idempotent_on_active dbSample 2 treatmentT2 rfl rfl

/- ===== C9: delete is a soft cancel ===== -/

/-- C9: a delete request on an existing treatment succeeds, sets the status
    to CANCELLED and does not remove the row: the treatment is still
    retrievable by id afterwards, with every field except the status and the
    update timestamp unchanged. -/
theorem delete_treatment_is_soft_cancel (db : DB) (tid : Nat) (t : Treatment)
    (ht : get_treatment_by_id db tid = some t) :
    (delete_treatment_endpoint db tid).snd = .ok "Tratamiento cancelado exitosamente" ∧
    get_treatment_by_id (delete_treatment_endpoint db tid).fst tid
      = some { t with status := .cancelled, updated_at := db.now } := by
  constructor
  · simp only [delete_treatment_endpoint, ht]
  · simp only [delete_treatment_endpoint, ht, cancel_treatment]
    rw [get_setTreatmentRow db tid
      (fun t => { t with status := TreatmentStatus.cancelled, updated_at := db.now })
      (fun s => rfl), ht]
    rfl

/-- C9 witness: deleting sample treatment 2 cancels it in place. -/
theorem delete_treatment_is_soft_cancel_witness :
    (delete_treatment_endpoint dbSample 2).snd = .ok "Tratamiento cancelado exitosamente" ∧
    get_treatment_by_id (delete_treatment_endpoint dbSample 2).fst 2
      = some { treatmentT2 with status := .cancelled, updated_at := dbSample.now } :=
  delete_treatment_is_soft_cancel dbSample 2 treatmentT2 rfl

/- ===== Alarm time validation ===== -/

/-- ASCII digit test (the shape CPython's `_strptime` patterns match for
    `%H`/`%M`; non-ASCII digit codepoints are out of the embedded input
    space). -/
def isAsciiDigit (c : Char) : Bool := 48 ≤ c.toNat && c.toNat ≤ 57

/-- Numeric value of an ASCII digit character. -/
def digitVal (c : Char) : Nat := c.toNat - 48

/-- One or two leading ASCII digits, greedily — exactly how the `%H` and
    `%M` directives of `strptime` consume input (their regexes take two
    digits when the value is in range and can never succeed on one digit
    when a second digit follows). -/
def parse12 : List Char → Option (Nat × List Char)
  | [] => none
  | [c1] => if isAsciiDigit c1 then some (digitVal c1, []) else none
  | c1 :: c2 :: rest2 =>
    if isAsciiDigit c1 then
      if isAsciiDigit c2 then some (digitVal c1 * 10 + digitVal c2, rest2)
      else some (digitVal c1, c2 :: rest2)
    else none

/-- Minute part of `strptime("%H:%M")`: one or two digits, nothing left
    over, minute at most 59, combined with the hour range check. -/
def checkMinute (h : Nat) : Option (Nat × List Char) → Option (Nat × Nat)
  | some (m, []) => if h ≤ 23 && m ≤ 59 then some (h, m) else none
  | some (_, _ :: _) => none
  | none => none

/-- Hour part of `strptime("%H:%M")`: one or two digits followed by the
    literal colon. -/
def checkHour : Option (Nat × List Char) → Option (Nat × Nat)
  | some (h, c :: rest2) => if c = ':' then checkMinute h (parse12 rest2) else none
  | some (_, []) => none
  | none => none

/-- `datetime.strptime(s, "%H:%M")`: one or two digits of hour, a colon, one
    or two digits of minute, nothing left over, hour at most 23 and minute
    at most 59 (Python's hour pattern is `2[0-3]`, `[0-1]` then a digit, or
    a single digit, and the minute pattern `[0-5]` then a digit or a single
    digit; combined with the leftover check this is exactly the greedy parse
    plus the range checks). -/
def strptimeHM (s : String) : Option (Nat × Nat) :=
  checkHour (parse12 s.data)

/- ===== Alarm service methods (`app/services/treatment_service.py`) ===== -/

/-- The alarm payload dict: a missing `time` key is represented by the empty
    string (both are falsy in the source's required-field check); the other
    keys carry the `.get(key, default)` defaults when absent. -/
structure AlarmSpec where
  time : String
  is_active : Bool := true
  sound_enabled : Bool := true
  visual_enabled : Bool := true
  description : String := ""
deriving DecidableEq, Repr

/-- The response dict built by the alarm service methods. -/
structure AlarmOut where
  id : Nat
  treatment_id : Nat
  time : String
  is_active : Bool
  sound_enabled : Bool
  visual_enabled : Bool
  description : String
deriving DecidableEq, Repr

def alarmToOut (a : Alarm) : AlarmOut :=
  { id := a.id, treatment_id := a.treatment_id, time := a.time,
    is_active := a.is_active, sound_enabled := a.sound_enabled,
    visual_enabled := a.visual_enabled, description := a.description }

/-- `TreatmentService.create_alarm`: the treatment must exist, the `time`
    value must be truthy and must parse under `strptime("%H:%M")`; on
    success the row is inserted with the next autoincrement id and its dict
    is returned. -/
def create_alarm (db : DB) (tid : Nat) (spec : AlarmSpec) :
    Except AlarmError (DB × AlarmOut) :=
  if (get_treatment_by_id db tid).isNone then .error .treatmentMissing
  else if spec.time == "" then .error .timeRequired
  else if (strptimeHM spec.time).isNone then .error .invalidTimeFormat
  else
    let a : Alarm :=
      { id := db.nextAlarmId, treatment_id := tid, time := spec.time,
        is_active := spec.is_active, sound_enabled := spec.sound_enabled,
        visual_enabled := spec.visual_enabled, description := spec.description }
    .ok ({ db with alarms := db.alarms ++ [a], nextAlarmId := db.nextAlarmId + 1 },
      alarmToOut a)

/-- The `db.query(Alarm).filter(Alarm.id == alarm_id, Alarm.treatment_id ==
    treatment_id).first()` lookup shared by `update_alarm` and
    `delete_alarm`. -/
def findAlarm (db : DB) (tid aid : Nat) : Option Alarm :=
  db.alarms.find? (fun a => a.id == aid && a.treatment_id == tid)

/-- Partial alarm update payload (`exclude_unset` fields as `Option`). -/
structure AlarmUpdate where
  time : Option String := none
  is_active : Option Bool := none
  sound_enabled : Option Bool := none
  visual_enabled : Option Bool := none
  description : Option String := none
deriving DecidableEq, Repr

def applyAlarmUpdate (a : Alarm) (u : AlarmUpdate) : Alarm :=
  { a with time := u.time.getD a.time,
           is_active := u.is_active.getD a.is_active,
           sound_enabled := u.sound_enabled.getD a.sound_enabled,
           visual_enabled := u.visual_enabled.getD a.visual_enabled,
           description := u.description.getD a.description }

/-- `TreatmentService.update_alarm`: the alarm must belong to the treatment;
    a supplied time is re-validated with the same `strptime` check and a
    failure rolls the whole update back; otherwise every supplied field is
    written. -/
def update_alarm (db : DB) (tid aid : Nat) (u : AlarmUpdate) :
    Except AlarmError (DB × AlarmOut) :=
  match findAlarm db tid aid with
  | none => .error .alarmNotFound
  | some a =>
      if (match u.time with
          | some ts => (strptimeHM ts).isNone
          | none => false)
      then .error .invalidTimeFormat
      else
        let db2 : DB :=
          { db with alarms := db.alarms.map (fun b =>
              if b.id == aid && b.treatment_id == tid then applyAlarmUpdate b u else b) }
        .ok (db2, alarmToOut (applyAlarmUpdate a u))

/-- `TreatmentService.delete_all_treatment_alarms`: bulk delete of the
    treatment's alarm rows; always reports success. -/
def delete_all_treatment_alarms (db : DB) (tid : Nat) : DB × Bool :=
  ({ db with alarms := db.alarms.filter (fun a => !(a.treatment_id == tid)) }, true)

/-- The creation loop of `sync_treatment_alarms`: each entry is attempted in
    order; an entry whose creation raises is skipped (`continue`) without
    undoing anything; the successfully created dicts are collected in
    order. -/
def syncCreateLoop (db : DB) (tid : Nat) : List AlarmSpec → DB × List AlarmOut
  | [] => (db, [])
  | spec :: rest =>
    match create_alarm db tid spec with
    | .ok (db2, out) =>
        let r := syncCreateLoop db2 tid rest
        (r.fst, out :: r.snd)
    | .error _ => syncCreateLoop db tid rest

/-- `TreatmentService.sync_treatment_alarms`: delete every alarm of the
    treatment, then attempt to create each entry of the list in order. -/
def sync_treatment_alarms (db : DB) (tid : Nat) (specs : List AlarmSpec) :
    DB × List AlarmOut :=
  syncCreateLoop (delete_all_treatment_alarms db tid).fst tid specs

/- ===== Declarative description of the sync result (spec side) ===== -/

/-- Validity of a sync entry once the treatment is known to exist: the time
    is present and parses. -/
def specTimeOk (spec : AlarmSpec) : Bool :=
  !(spec.time == "") && (strptimeHM spec.time).isSome

/-- The row `create_alarm` inserts for a given spec and autoincrement id. -/
def mkAlarm (aid tid : Nat) (spec : AlarmSpec) : Alarm :=
  { id := aid, treatment_id := tid, time := spec.time,
    is_active := spec.is_active, sound_enabled := spec.sound_enabled,
    visual_enabled := spec.visual_enabled, description := spec.description }

/-- The rows created for a list of specs, with consecutive autoincrement
    ids starting at `aid`. -/
def assignIds (aid tid : Nat) : List AlarmSpec → List Alarm
  | [] => []
  | spec :: rest => mkAlarm aid tid spec :: assignIds (aid + 1) tid rest

theorem syncCreateLoop_spec (tid : Nat) (specs : List AlarmSpec) :
    ∀ db : DB, (get_treatment_by_id db tid).isSome →
    syncCreateLoop db tid specs =
      ({ db with
           alarms := db.alarms ++ assignIds db.nextAlarmId tid (specs.filter specTimeOk),
           nextAlarmId := db.nextAlarmId + (specs.filter specTimeOk).length },
        (assignIds db.nextAlarmId tid (specs.filter specTimeOk)).map alarmToOut) := by
  induction specs with
  | nil =>
    intro db hdb
    simp [syncCreateLoop, assignIds]
  | cons spec rest ih =>
    intro db hdb
    have hnone : (get_treatment_by_id db tid).isNone = false := by
      cases h : get_treatment_by_id db tid with
      | none => rw [h] at hdb; cases hdb
      | some t => rfl
    cases hok : specTimeOk spec with
    | true =>
      have htime : (spec.time == "") = false := by
        cases h : (spec.time == "") with
        | false => rfl
        | true => rw [specTimeOk, h] at hok; cases hok
      have hsome : (strptimeHM spec.time).isNone = false := by
        cases h : strptimeHM spec.time with
        | none =>
          rw [specTimeOk, htime, h] at hok
          cases hok
        | some v => rfl
      have hcreate : create_alarm db tid spec =
          .ok ({ db with alarms := db.alarms ++ [mkAlarm db.nextAlarmId tid spec],
                         nextAlarmId := db.nextAlarmId + 1 },
            alarmToOut (mkAlarm db.nextAlarmId tid spec)) := by
        unfold create_alarm
        rw [hnone, htime, hsome]
        rfl
      have hdb2 : (get_treatment_by_id
          { db with alarms := db.alarms ++ [mkAlarm db.nextAlarmId tid spec],
                    nextAlarmId := db.nextAlarmId + 1 } tid).isSome := hdb
      rw [List.filter_cons_of_pos hok]
      simp only [syncCreateLoop, hcreate, ih _ hdb2]
      simp [assignIds, List.append_assoc, Nat.add_assoc, Nat.add_comm 1]
    | false =>
      have herr : ∃ e, create_alarm db tid spec = .error e := by
        unfold create_alarm
        rw [hnone]
        cases htime : (spec.time == "") with
        | true => exact ⟨.timeRequired, rfl⟩
        | false =>
          have : (strptimeHM spec.time).isNone = true := by
            rw [specTimeOk, htime] at hok
            cases h : strptimeHM spec.time with
            | none => rfl
            | some v => rw [h] at hok; cases hok
          rw [this]
          exact ⟨.invalidTimeFormat, rfl⟩
      obtain ⟨e, he⟩ := herr
      rw [List.filter_cons_of_neg (by rw [hok]; exact Bool.false_ne_true)]
      simp only [syncCreateLoop, he]
      exact ih db hdb

/-- C3: `syncAlarms` is replace-all with silent per-entry skipping — for an
    existing treatment, every pre-existing alarm of that treatment is
    deleted, then one row per valid spec is created in input order with
    consecutive ids (invalid entries are skipped without aborting or rolling
    anything back), and the returned list is exactly the created rows. -/
theorem sync_replace_all_skip_invalid (db : DB) (tid : Nat) (specs : List AlarmSpec)
    (t : Treatment) (ht : get_treatment_by_id db tid = some t) :
    sync_treatment_alarms db tid specs =
      ({ db with
           alarms := db.alarms.filter (fun a => !(a.treatment_id == tid))
             ++ assignIds db.nextAlarmId tid (specs.filter specTimeOk),
           nextAlarmId := db.nextAlarmId + (specs.filter specTimeOk).length },
        (assignIds db.nextAlarmId tid (specs.filter specTimeOk)).map alarmToOut) := by
  unfold sync_treatment_alarms delete_all_treatment_alarms
  exact syncCreateLoop_spec tid specs _ (by rw [show get_treatment_by_id
    { db with alarms := db.alarms.filter (fun a => !(a.treatment_id == tid)) } tid
      = get_treatment_by_id db tid from rfl, ht]; rfl)

/-- C3 witness: syncing three entries of which the middle one is invalid
    ("25:00") creates exactly the two valid alarms, in order, and returns
    them. -/
theorem sync_replace_all_skip_invalid_witness :
    sync_treatment_alarms dbSample 2
        [{ time := "08:30" }, { time := "25:00" }, { time := "07:00" }] =
      ({ dbSample with
           alarms := dbSample.alarms.filter (fun a => !(a.treatment_id == 2))
             ++ assignIds dbSample.nextAlarmId 2
                 ([{ time := "08:30" }, { time := "25:00" }, { time := "07:00" }].filter
                   specTimeOk),
           nextAlarmId := dbSample.nextAlarmId
             + ([{ time := "08:30" }, { time := "25:00" }, { time := "07:00" }].filter
                 specTimeOk).length },
        (assignIds dbSample.nextAlarmId 2
            ([{ time := "08:30" }, { time := "25:00" }, { time := "07:00" }].filter
              specTimeOk)).map alarmToOut) :=
  sync_replace_all_skip_invalid dbSample 2 _ treatmentT2 rfl

/- ===== The accepted time grammar (claim C6) ===== -/

/-- Value of a digit string, most significant digit first. -/
def digitsToNat (cs : List Char) : Nat := cs.foldl (fun n c => n * 10 + digitVal c) 0

theorem digitsToNat_one (c : Char) : digitsToNat [c] = digitVal c := by
  simp [digitsToNat]

theorem digitsToNat_two (a b : Char) :
    digitsToNat [a, b] = digitVal a * 10 + digitVal b := by
  simp [digitsToNat]

/-- The time grammar claim C6 asserts: exactly two digits, a colon, exactly
    two digits, hour at most 23, minute at most 59. -/
def claimedTimeOk (s : String) : Bool :=
  match s.data with
  | [h1, h2, c, m1, m2] =>
      isAsciiDigit h1 && isAsciiDigit h2 && (c == ':') && isAsciiDigit m1 &&
        isAsciiDigit m2 && decide (digitsToNat [h1, h2] ≤ 23) &&
        decide (digitsToNat [m1, m2] ≤ 59)
  | _ => false

/-- The grammar the implementation actually accepts (amended claim C6): one
    or two digits, a colon, one or two digits, hour at most 23, minute at
    most 59. -/
def laxTimeOk (s : String) : Prop :=
  ∃ hs ms : List Char,
    s.data = hs ++ ':' :: ms ∧
    (∀ c ∈ hs, isAsciiDigit c) ∧ (∀ c ∈ ms, isAsciiDigit c) ∧
    1 ≤ hs.length ∧ hs.length ≤ 2 ∧ 1 ≤ ms.length ∧ ms.length ≤ 2 ∧
    digitsToNat hs ≤ 23 ∧ digitsToNat ms ≤ 59

theorem parse12_sound (cs : List Char) (v : Nat) (rest : List Char)
    (h : parse12 cs = some (v, rest)) :
    ∃ ds : List Char, cs = ds ++ rest ∧ (∀ c ∈ ds, isAsciiDigit c) ∧
      1 ≤ ds.length ∧ ds.length ≤ 2 ∧ digitsToNat ds = v := by
  cases cs with
  | nil => simp [parse12] at h
  | cons c1 rest1 =>
    cases rest1 with
    | nil =>
      simp only [parse12] at h
      by_cases h1 : isAsciiDigit c1
      · rw [if_pos h1, Option.some.injEq, Prod.mk.injEq] at h
        obtain ⟨hv, hr⟩ := h
        refine ⟨[c1], by rw [← hr]; simp, ?_, by simp, by simp,
          by rw [digitsToNat_one, hv]⟩
        intro c hc
        simp only [List.mem_singleton] at hc
        subst hc
        exact h1
      · rw [if_neg h1] at h
        cases h
    | cons c2 rest2 =>
      simp only [parse12] at h
      by_cases h1 : isAsciiDigit c1
      · rw [if_pos h1] at h
        by_cases h2 : isAsciiDigit c2
        · rw [if_pos h2, Option.some.injEq, Prod.mk.injEq] at h
          obtain ⟨hv, hr⟩ := h
          refine ⟨[c1, c2], by rw [← hr]; rfl, ?_, by simp, by simp,
            by rw [digitsToNat_two, hv]⟩
          intro c hc
          simp only [List.mem_cons, List.mem_singleton, List.not_mem_nil] at hc
          rcases hc with rfl | rfl | hc
          · exact h1
          · exact h2
          · cases hc
        · rw [if_neg h2, Option.some.injEq, Prod.mk.injEq] at h
          obtain ⟨hv, hr⟩ := h
          refine ⟨[c1], by rw [← hr]; simp, ?_, by simp, by simp,
            by rw [digitsToNat_one, hv]⟩
          intro c hc
          simp only [List.mem_singleton] at hc
          subst hc
          exact h1
      · rw [if_neg h1] at h
        cases h

theorem parse12_one (c : Char) (rest : List Char) (hd : isAsciiDigit c)
    (hrest : rest = [] ∨ ∃ r rs, rest = r :: rs ∧ isAsciiDigit r = false) :
    parse12 (c :: rest) = some (digitVal c, rest) := by
  rcases hrest with rfl | ⟨r, rs, rfl, hr⟩
  · simp only [parse12]
    rw [if_pos hd]
  · simp only [parse12]
    rw [if_pos hd, if_neg (by rw [hr]; exact Bool.false_ne_true)]

theorem parse12_two (a b : Char) (rest : List Char) (ha : isAsciiDigit a)
    (hb : isAsciiDigit b) :
    parse12 (a :: b :: rest) = some (digitVal a * 10 + digitVal b, rest) := by
  simp only [parse12]
  rw [if_pos ha, if_pos hb]

theorem colon_not_digit : isAsciiDigit ':' = false := rfl

/-- The acceptance predicate of `strptime("%H:%M")` coincides with the
    lax one-or-two-digit grammar. -/
theorem strptimeHM_isSome_iff (s : String) : (strptimeHM s).isSome = true ↔ laxTimeOk s := by
  constructor
  · intro h
    unfold strptimeHM at h
    cases hp : parse12 s.data with
    | none => rw [hp] at h; simp [checkHour] at h
    | some pr =>
      obtain ⟨hv, rest⟩ := pr
      rw [hp] at h
      cases rest with
      | nil => simp [checkHour] at h
      | cons c rest2 =>
        simp only [checkHour] at h
        by_cases hc : c = ':'
        · subst hc
          rw [if_pos rfl] at h
          cases hp2 : parse12 rest2 with
          | none => rw [hp2] at h; simp [checkMinute] at h
          | some pr2 =>
            obtain ⟨mv, rest3⟩ := pr2
            rw [hp2] at h
            cases rest3 with
            | cons d rest4 => simp [checkMinute] at h
            | nil =>
              simp only [checkMinute] at h
              split at h
              next hrange =>
                obtain ⟨ds1, hcs1, hdig1, hlen1a, hlen1b, hval1⟩ :=
                  parse12_sound _ _ _ hp
                obtain ⟨ds2, hcs2, hdig2, hlen2a, hlen2b, hval2⟩ :=
                  parse12_sound _ _ _ hp2
                rw [List.append_nil] at hcs2
                subst hcs2
                simp only [Bool.and_eq_true, decide_eq_true_eq] at hrange
                exact ⟨ds1, rest2, by rw [hcs1], hdig1, hdig2, hlen1a, hlen1b, hlen2a,
                  hlen2b, by rw [hval1]; exact hrange.1, by rw [hval2]; exact hrange.2⟩
              next => simp at h
        · rw [if_neg hc] at h
          simp at h
  · intro hlax
    obtain ⟨hs, ms, hdata, hdig1, hdig2, hlen1a, hlen1b, hlen2a, hlen2b, hv1, hv2⟩ := hlax
    have hmsparse : parse12 ms = some (digitsToNat ms, []) := by
      cases ms with
      | nil => simp at hlen2a
      | cons b t =>
        cases t with
        | nil =>
          rw [digitsToNat_one]
          exact parse12_one b [] (hdig2 b (by simp)) (Or.inl rfl)
        | cons b2 t2 =>
          cases t2 with
          | nil =>
            rw [digitsToNat_two]
            exact parse12_two b b2 [] (hdig2 b (by simp)) (hdig2 b2 (by simp))
          | cons b3 t3 => simp at hlen2b
    have hhsparse : parse12 (hs ++ ':' :: ms) = some (digitsToNat hs, ':' :: ms) := by
      cases hs with
      | nil => simp at hlen1a
      | cons a t =>
        cases t with
        | nil =>
          rw [digitsToNat_one]
          exact parse12_one a (':' :: ms) (hdig1 a (by simp))
            (Or.inr ⟨':', ms, rfl, colon_not_digit⟩)
        | cons a2 t2 =>
          cases t2 with
          | nil =>
            rw [digitsToNat_two]
            exact parse12_two a a2 (':' :: ms) (hdig1 a (by simp)) (hdig1 a2 (by simp))
          | cons a3 t3 => simp at hlen1b
    unfold strptimeHM
    rw [hdata, hhsparse]
    simp only [checkHour, if_pos rfl]
    rw [hmsparse]
    simp only [checkMinute]
    have hcond : (digitsToNat hs ≤ 23 && digitsToNat ms ≤ 59) = true := by
      simp only [Bool.and_eq_true, decide_eq_true_eq]
      exact ⟨hv1, hv2⟩
    rw [if_pos hcond]
    rfl

/-- C6 counterexample: `strptime("%H:%M")` accepts the single-digit hour
    "8:30", which the claim's two-digit grammar rejects, and `createAlarm`
    therefore accepts it; "25:00" and "12:60" are rejected as the claim
    says. -/
theorem alarm_time_two_digit_claim_counterexample :
    claimedTimeOk "8:30" = false ∧
    strptimeHM "8:30" = some (8, 30) ∧
    (create_alarm dbSample 2 { time := "8:30" }).isOk = true ∧
    strptimeHM "25:00" = none ∧
    strptimeHM "12:60" = none := by
  refine ⟨rfl, rfl, rfl, rfl, rfl⟩

/-- Sample alarm row and database used by the update-alarm witnesses. -/
def alarmA1 : Alarm :=
  { id := 1, treatment_id := 2, time := "09:00", is_active := true,
    sound_enabled := true, visual_enabled := true, description := "" }

def dbAlarms : DB := { dbSample with alarms := [alarmA1], nextAlarmId := 2 }

/-- C6 amended: a time string submitted to `createAlarm` (on an existing
    treatment) or to `updateAlarm` (on an existing alarm) is accepted iff it
    consists of one or two digits, a colon and one or two digits with hour
    at most 23 and minute at most 59 — so "25:00" and "12:60" are rejected
    but "8:30" is accepted. -/
theorem alarm_time_accepted_iff_lax (db : DB) (tid aid : Nat) (spec : AlarmSpec)
    (u : AlarmUpdate) (ts : String) (t : Treatment) (a : Alarm)
    (ht : get_treatment_by_id db tid = some t) (ha : findAlarm db tid aid = some a)
    (hu : u.time = some ts) :
    ((create_alarm db tid spec).isOk = true ↔ laxTimeOk spec.time) ∧
    ((update_alarm db tid aid u).isOk = true ↔ laxTimeOk ts) := by
  have hnone : (get_treatment_by_id db tid).isNone = false := by rw [ht]; rfl
  constructor
  · unfold create_alarm
    rw [hnone]
    simp only [Bool.false_eq_true, if_false]
    by_cases hempty : spec.time = ""
    · have hbeq : (spec.time == "") = true := by rw [hempty]; rfl
      rw [if_pos hbeq]
      constructor
      · intro hko; cases hko
      · intro hlax
        obtain ⟨hs, ms, hdata, _⟩ := hlax
        rw [hempty] at hdata
        have := congrArg List.length hdata
        simp at this
        omega
    · have hbeq : (spec.time == "") = false := by
        cases h : (spec.time == "") with
        | false => rfl
        | true => exact absurd (by simpa using h) hempty
      rw [if_neg (by rw [hbeq]; exact Bool.false_ne_true)]
      rw [← strptimeHM_isSome_iff]
      cases h : strptimeHM spec.time with
      | none => simp [h, Except.isOk, Except.toBool]
      | some v => simp [h, Except.isOk, Except.toBool]
  · unfold update_alarm
    rw [ha, hu]
    rw [← strptimeHM_isSome_iff]
    cases h : strptimeHM ts with
    | none => simp [h, Except.isOk, Except.toBool]
    | some v => simp [h, Except.isOk, Except.toBool]

/-- C6 amended witness: on the sample data, `createAlarm` accepts "8:30" and
    `updateAlarm` rejects "12:60", matching the lax grammar on each. -/
theorem alarm_time_accepted_iff_lax_witness :
    ((create_alarm dbAlarms 2 { time := "8:30" }).isOk = true ↔ laxTimeOk "8:30") ∧
    ((update_alarm dbAlarms 2 1 { time := some "12:60" }).isOk = true ↔ laxTimeOk "12:60") :=
  alarm_time_accepted_iff_lax dbAlarms 2 1 { time := "8:30" } { time := some "12:60" }
    "12:60" treatmentT2 alarmA1 rfl rfl rfl

/- ===== Alarm listing and its ordering (claim C7) ===== -/

/-- Lexicographic order on character lists by codepoint: the collation the
    relational store applies to `ORDER BY alarms.time` on the varchar
    column. -/
def charListLe : List Char → List Char → Bool
  | [], _ => true
  | _ :: _, [] => false
  | a :: as, b :: bs =>
    if a.toNat < b.toNat then true
    else if b.toNat < a.toNat then false
    else charListLe as bs

def strLe (a b : String) : Bool := charListLe a.data b.data

/-- The sort key relation of the alarm listing query. -/
def alarmTimeLe (a b : Alarm) : Prop := strLe a.time b.time = true

instance : DecidableRel alarmTimeLe :=
  fun a b => inferInstanceAs (Decidable (strLe a.time b.time = true))

/-- `TreatmentService.get_treatment_alarms`: empty when the treatment is
    absent; otherwise the treatment's alarms sorted by the raw `time`
    string (a stable sort, which is what `ORDER BY` performs), rendered to
    response dicts. -/
def get_treatment_alarms (db : DB) (tid : Nat) : List AlarmOut :=
  match get_treatment_by_id db tid with
  | none => []
  | some _ =>
      (List.insertionSort alarmTimeLe (db.alarms.filter (fun a => a.treatment_id == tid))).map
        alarmToOut

/-- Minutes-since-midnight reading of an accepted time string (0 when the
    string does not parse); used to state time-of-day ordering. -/
def timeValue (s : String) : Nat :=
  match strptimeHM s with
  | some (h, m) => h * 60 + m
  | none => 0

theorem charListLe_total (as : List Char) :
    ∀ bs, charListLe as bs = true ∨ charListLe bs as = true := by
  induction as with
  | nil => intro bs; exact .inl rfl
  | cons a as2 ih =>
    intro bs
    cases bs with
    | nil => exact .inr rfl
    | cons b bs2 =>
      simp only [charListLe]
      rcases Nat.lt_trichotomy a.toNat b.toNat with h | h | h
      · exact .inl (by rw [if_pos h])
      · rw [if_neg (by omega), if_neg (by omega), if_neg (by omega), if_neg (by omega)]
        exact ih bs2
      · exact .inr (by rw [if_pos h])

theorem charListLe_trans (as : List Char) : ∀ bs cs, charListLe as bs = true →
    charListLe bs cs = true → charListLe as cs = true := by
  induction as with
  | nil => intro bs cs h1 h2; rfl
  | cons a as2 ih =>
    intro bs cs h1 h2
    cases bs with
    | nil => exact absurd h1 (by simp [charListLe])
    | cons b bs2 =>
      cases cs with
      | nil => exact absurd h2 (by simp [charListLe])
      | cons c cs2 =>
        simp only [charListLe] at h1 h2 ⊢
        split_ifs at h1 h2 ⊢ <;>
          first
            | rfl
            | (exact absurd h1 (by decide))
            | (exact absurd h2 (by decide))
            | (exact ih bs2 cs2 h1 h2)
            | (exfalso; omega)

instance : IsTotal Alarm alarmTimeLe :=
  ⟨fun a b => charListLe_total a.time.data b.time.data⟩

instance : IsTrans Alarm alarmTimeLe :=
  ⟨fun a b c h1 h2 => charListLe_trans a.time.data b.time.data c.time.data h1 h2⟩

/- Facts about canonical two-digit times. -/

theorem claimedTimeOk_shape (s : String) (h : claimedTimeOk s = true) :
    ∃ a1 a2 a3 a4 : Char, s.data = [a1, a2, ':', a3, a4] ∧
      isAsciiDigit a1 ∧ isAsciiDigit a2 ∧ isAsciiDigit a3 ∧ isAsciiDigit a4 ∧
      digitVal a1 * 10 + digitVal a2 ≤ 23 ∧ digitVal a3 * 10 + digitVal a4 ≤ 59 := by
  unfold claimedTimeOk at h
  split at h
  next a1 a2 c a3 a4 heq =>
    simp only [Bool.and_eq_true, beq_iff_eq, decide_eq_true_eq] at h
    obtain ⟨⟨⟨⟨⟨⟨hd1, hd2⟩, hc⟩, hd3⟩, hd4⟩, hv1⟩, hv2⟩ := h
    subst hc
    rw [digitsToNat_two] at hv1 hv2
    exact ⟨a1, a2, a3, a4, heq, hd1, hd2, hd3, hd4, hv1, hv2⟩
  next => cases h

theorem claimed_strptime (s : String) (a1 a2 a3 a4 : Char)
    (hdata : s.data = [a1, a2, ':', a3, a4])
    (hd1 : isAsciiDigit a1 = true) (hd2 : isAsciiDigit a2 = true)
    (hd3 : isAsciiDigit a3 = true) (hd4 : isAsciiDigit a4 = true)
    (hv1 : digitVal a1 * 10 + digitVal a2 ≤ 23)
    (hv2 : digitVal a3 * 10 + digitVal a4 ≤ 59) :
    strptimeHM s = some (digitVal a1 * 10 + digitVal a2,
      digitVal a3 * 10 + digitVal a4) := by
  unfold strptimeHM
  rw [hdata, parse12_two _ _ _ hd1 hd2]
  show checkMinute (digitVal a1 * 10 + digitVal a2) (parse12 [a3, a4]) = _
  rw [parse12_two _ _ _ hd3 hd4]
  simp only [checkMinute]
  have hc : (digitVal a1 * 10 + digitVal a2 ≤ 23 &&
      digitVal a3 * 10 + digitVal a4 ≤ 59) = true := by
    simp only [Bool.and_eq_true, decide_eq_true_eq]
    exact ⟨hv1, hv2⟩
  rw [if_pos hc]

theorem canon_specTimeOk (spec : AlarmSpec) (h : claimedTimeOk spec.time = true) :
    specTimeOk spec = true := by
  obtain ⟨a1, a2, a3, a4, hdata, hd1, hd2, hd3, hd4, hv1, hv2⟩ :=
    claimedTimeOk_shape spec.time h
  unfold specTimeOk
  rw [claimed_strptime spec.time a1 a2 a3 a4 hdata hd1 hd2 hd3 hd4 hv1 hv2]
  have : (spec.time == "") = false := by
    cases he : (spec.time == "") with
    | false => rfl
    | true =>
      have : spec.time = "" := eq_of_beq he
      rw [this] at hdata
      cases hdata
  rw [this]
  rfl

theorem charListLe_nil (l : List Char) : charListLe [] l = true := rfl

theorem charListLe_cons (x y : Char) (xs ys : List Char) :
    charListLe (x :: xs) (y :: ys) = true ↔
      (x.toNat < y.toNat ∨ (x.toNat = y.toNat ∧ charListLe xs ys = true)) := by
  simp only [charListLe]
  split_ifs with h1 h2
  · simp only [true_iff]
    exact Or.inl h1
  · constructor
    · intro hh; cases hh
    · rintro (hlt | ⟨heq, _⟩) <;> omega
  · constructor
    · intro hh
      exact Or.inr ⟨by omega, hh⟩
    · rintro (hlt | ⟨heq, hh⟩)
      · omega
      · exact hh

theorem canonLex (a b : String) (ha : claimedTimeOk a = true)
    (hb : claimedTimeOk b = true) (hle : strLe a b = true) :
    timeValue a ≤ timeValue b := by
  obtain ⟨a1, a2, a3, a4, hadata, hda1, hda2, hda3, hda4, hva1, hva2⟩ :=
    claimedTimeOk_shape a ha
  obtain ⟨b1, b2, b3, b4, hbdata, hdb1, hdb2, hdb3, hdb4, hvb1, hvb2⟩ :=
    claimedTimeOk_shape b hb
  unfold timeValue
  rw [claimed_strptime a a1 a2 a3 a4 hadata hda1 hda2 hda3 hda4 hva1 hva2,
    claimed_strptime b b1 b2 b3 b4 hbdata hdb1 hdb2 hdb3 hdb4 hvb1 hvb2]
  unfold strLe at hle
  rw [hadata, hbdata] at hle
  simp only [charListLe_cons, charListLe_nil, eq_self_iff_true, and_true,
    true_and] at hle
  simp only [isAsciiDigit, Bool.and_eq_true, decide_eq_true_eq] at hda1 hda2 hda3 hda4 hdb1 hdb2 hdb3 hdb4
  simp only [digitVal] at hva1 hva2 hvb1 hvb2 ⊢
  omega

/-- C7 counterexample: after syncing ["8:30", "10:00"] (both accepted), the
    listing returns ["10:00", "8:30"] — the raw strings sorted
    lexicographically — which is descending, not ascending, in time of day
    (10:00 = 600 min comes back before 8:30 = 510 min). -/
theorem list_alarms_not_time_ordered_counterexample :
    (get_treatment_alarms
        (sync_treatment_alarms dbSample 2 [{ time := "8:30" }, { time := "10:00" }]).fst
        2).map AlarmOut.time = ["10:00", "8:30"] ∧
    timeValue "8:30" = 510 ∧ timeValue "10:00" = 600 ∧
    ¬ ((get_treatment_alarms
        (sync_treatment_alarms dbSample 2 [{ time := "8:30" }, { time := "10:00" }]).fst
        2).Pairwise (fun x y => timeValue x.time ≤ timeValue y.time)) := by
  refine ⟨rfl, rfl, rfl, by decide⟩

theorem assignIds_mem (tid : Nat) (specs : List AlarmSpec) :
    ∀ n, ∀ a ∈ assignIds n tid specs,
      a.treatment_id = tid ∧ ∃ spec ∈ specs, a.time = spec.time := by
  induction specs with
  | nil => intro n a ha; cases ha
  | cons s rest ih =>
    intro n a ha
    simp only [assignIds, List.mem_cons] at ha
    rcases ha with rfl | ha
    · exact ⟨rfl, s, by simp, rfl⟩
    · obtain ⟨h1, spec, hsp, h2⟩ := ih (n + 1) a ha
      exact ⟨h1, spec, by simp [hsp], h2⟩

/-- C7 amended: the listing is ordered by the raw time string; when every
    submitted time is canonical two-digit HH:MM — the only shape the
    original claim contemplates — every entry validates, and sync followed
    by list returns exactly the alarms created from the submitted specs
    (a permutation of them), ordered by time of day ascending, regardless of
    the input order.  For non-canonical accepted strings such as "8:30" the
    string order can disagree with time-of-day order (see the
    counterexample). -/
theorem sync_then_list_time_sorted_for_canonical (db : DB) (tid : Nat)
    (specs : List AlarmSpec) (t : Treatment)
    (ht : get_treatment_by_id db tid = some t)
    (hcanon : ∀ spec ∈ specs, claimedTimeOk spec.time = true) :
    specs.filter specTimeOk = specs ∧
    (get_treatment_alarms (sync_treatment_alarms db tid specs).fst tid).Perm
      ((assignIds db.nextAlarmId tid specs).map alarmToOut) ∧
    (get_treatment_alarms (sync_treatment_alarms db tid specs).fst tid).Pairwise
      (fun x y => timeValue x.time ≤ timeValue y.time) := by
  have hfilter : specs.filter specTimeOk = specs :=
    List.filter_eq_self.mpr (fun a ha => canon_specTimeOk a (hcanon a ha))
  have hsync := sync_replace_all_skip_invalid db tid specs t ht
  rw [hfilter] at hsync
  rw [hsync]
  have hget : get_treatment_by_id
      { db with
          alarms := db.alarms.filter (fun a => !(a.treatment_id == tid))
            ++ assignIds db.nextAlarmId tid specs,
          nextAlarmId := db.nextAlarmId + specs.length } tid = some t := ht
  unfold get_treatment_alarms
  rw [hget]
  have hlist : ((db.alarms.filter (fun a => !(a.treatment_id == tid))
      ++ assignIds db.nextAlarmId tid specs).filter (fun a => a.treatment_id == tid))
      = assignIds db.nextAlarmId tid specs := by
    rw [List.filter_append]
    rw [List.filter_filter]
    have h1 : (db.alarms.filter
        (fun a => (a.treatment_id == tid) && !(a.treatment_id == tid))) = [] := by
      have : ∀ a : Alarm, ((a.treatment_id == tid) && !(a.treatment_id == tid)) = false := by
        intro a
        cases h : (a.treatment_id == tid) <;> simp [h]
      simp only [this]
      exact List.filter_false _
    have h2 : ((assignIds db.nextAlarmId tid specs).filter
        (fun a => a.treatment_id == tid)) = assignIds db.nextAlarmId tid specs := by
      refine List.filter_eq_self.mpr ?_
      intro a ha
      have := (assignIds_mem tid specs db.nextAlarmId a ha).1
      simp [this]
    rw [h1, h2]
    rfl
  rw [hlist]
  have hcanonL : ∀ a ∈ assignIds db.nextAlarmId tid specs,
      claimedTimeOk a.time = true := by
    intro a ha
    obtain ⟨_, spec, hsp, hts⟩ := assignIds_mem tid specs db.nextAlarmId a ha
    rw [hts]
    exact hcanon spec hsp
  refine ⟨hfilter, ?_, ?_⟩
  · exact (List.perm_insertionSort alarmTimeLe _).map alarmToOut
  · have hsorted := List.sorted_insertionSort alarmTimeLe
      (assignIds db.nextAlarmId tid specs)
    rw [List.pairwise_map]
    have hmemsort : ∀ a ∈ List.insertionSort alarmTimeLe
        (assignIds db.nextAlarmId tid specs), claimedTimeOk a.time = true := by
      intro a ha
      exact hcanonL a ((List.perm_insertionSort alarmTimeLe _).mem_iff.mp ha)
    refine List.Pairwise.imp_of_mem ?_ hsorted
    intro x y hx hy hxy
    exact canonLex x.time y.time (hmemsort x hx) (hmemsort y hy) hxy

/-- C7 amended witness: canonical times "12:00" and "08:30" submitted in
    descending order come back ascending. -/
theorem sync_then_list_time_sorted_for_canonical_witness :
    ([({ time := "12:00" } : AlarmSpec), { time := "08:30" }].filter specTimeOk
        = [({ time := "12:00" } : AlarmSpec), { time := "08:30" }]) ∧
    (get_treatment_alarms
        (sync_treatment_alarms dbSample 2
          [({ time := "12:00" } : AlarmSpec), { time := "08:30" }]).fst 2).Perm
      ((assignIds dbSample.nextAlarmId 2
          [({ time := "12:00" } : AlarmSpec), { time := "08:30" }]).map alarmToOut) ∧
    (get_treatment_alarms
        (sync_treatment_alarms dbSample 2
          [({ time := "12:00" } : AlarmSpec), { time := "08:30" }]).fst 2).Pairwise
      (fun x y => timeValue x.time ≤ timeValue y.time) :=
  sync_then_list_time_sorted_for_canonical dbSample 2
    [{ time := "12:00" }, { time := "08:30" }] treatmentT2 rfl (by decide)

/- ===== Patient deletion (claim C4) ===== -/

/-- `PatientService.get_patient_by_id`. -/
def get_patient_by_id (db : DB) (pid : Nat) : Option Patient :=
  db.patients.find? (fun p => p.id == pid)

/-- `PatientService.has_active_treatments`: the count of the patient's
    treatments with status ACTIVE and end date today-or-later, compared with
    zero. -/
def has_active_treatments (db : DB) (pid : Nat) : Bool :=
  decide (0 < db.treatments.countP (fun t =>
    t.patient_id == pid && t.status == TreatmentStatus.active &&
      decide (db.today ≤ t.end_date)))

/-- `PatientService.delete_patient` together with the SQLAlchemy cascade
    declared on the model: the patient row is removed, and with it the
    patient's treatments and those treatments' alarms. -/
def delete_patient_row (db : DB) (pid : Nat) : DB :=
  let removed := db.treatments.filter (fun t => t.patient_id == pid)
  { db with
      patients := db.patients.filter (fun p => !(p.id == pid)),
      treatments := db.treatments.filter (fun t => !(t.patient_id == pid)),
      alarms := db.alarms.filter (fun a =>
        !(removed.any (fun t => t.id == a.treatment_id))) }

/-- `DELETE /patients/{id}` handler (`app/api/patients.py`, access already
    granted): 404 when the patient is absent, blocked with HTTP 400
    ("tratamientos activos") when an ACTIVE treatment ending today or later
    exists, hard delete otherwise. -/
def delete_patient_endpoint (db : DB) (pid : Nat) : DB × Except ApiError String :=
  match get_patient_by_id db pid with
  | none => (db, .error .notFound)
  | some _ =>
      if has_active_treatments db pid then (db, .error .dependentResourceExists)
      else (delete_patient_row db pid, .ok "Paciente eliminado exitosamente")

theorem has_active_treatments_iff (db : DB) (pid : Nat) :
    has_active_treatments db pid = true ↔
      ∃ t ∈ db.treatments, t.patient_id = pid ∧ t.status = TreatmentStatus.active ∧
        db.today ≤ t.end_date := by
  unfold has_active_treatments
  rw [decide_eq_true_iff, List.countP_pos_iff]
  constructor
  · rintro ⟨t, ht, hp⟩
    simp only [Bool.and_eq_true, beq_iff_eq, decide_eq_true_eq] at hp
    exact ⟨t, ht, hp.1.1, hp.1.2, hp.2⟩
  · rintro ⟨t, ht, h1, h2, h3⟩
    refine ⟨t, ht, ?_⟩
    simp only [Bool.and_eq_true, beq_iff_eq, decide_eq_true_eq]
    exact ⟨⟨h1, h2⟩, h3⟩

/-- C4: deleting an existing patient fails with DependentResourceExists
    exactly when some treatment of that patient is ACTIVE with end date
    today or later; when no such treatment exists the patient row is
    removed (and is no longer retrievable by id). -/
theorem delete_patient_blocked_iff_active (db : DB) (pid : Nat) (P : Patient)
    (hP : get_patient_by_id db pid = some P) :
    ((delete_patient_endpoint db pid).snd = .error .dependentResourceExists ↔
      ∃ t ∈ db.treatments, t.patient_id = pid ∧ t.status = TreatmentStatus.active ∧
        db.today ≤ t.end_date) ∧
    ((¬ ∃ t ∈ db.treatments, t.patient_id = pid ∧ t.status = TreatmentStatus.active ∧
        db.today ≤ t.end_date) →
      (delete_patient_endpoint db pid).fst.patients
          = db.patients.filter (fun p => !(p.id == pid)) ∧
      get_patient_by_id (delete_patient_endpoint db pid).fst pid = none) := by
  constructor
  · cases hact : has_active_treatments db pid with
    | true =>
      simp only [delete_patient_endpoint, hP, hact, if_true]
      simp only [true_iff]
      exact (has_active_treatments_iff db pid).mp hact
    | false =>
      simp only [delete_patient_endpoint, hP, hact]
      constructor
      · intro hh
        simp at hh
      · intro hex
        have := (has_active_treatments_iff db pid).mpr hex
        rw [hact] at this
        cases this
  · intro hnone
    have hact : has_active_treatments db pid = false := by
      cases hact : has_active_treatments db pid with
      | false => rfl
      | true => exact absurd ((has_active_treatments_iff db pid).mp hact) hnone
    simp only [delete_patient_endpoint, hP, hact, if_false, Bool.false_eq_true,
      delete_patient_row]
    refine ⟨trivial, ?_⟩
    unfold get_patient_by_id
    rw [List.find?_eq_none]
    intro p hp
    have := List.of_mem_filter hp
    simp only [Bool.not_eq_eq_eq_not, Bool.not_true] at this
    simp [this]

/-- C4 witness: patient 1 of the sample database has the ACTIVE treatment 2
    ending on day 9 (today is day 3), so its deletion is blocked; patient 2
    has no treatments and is deleted. -/
theorem delete_patient_blocked_iff_active_witness :
    (delete_patient_endpoint dbSample 1).snd = .error .dependentResourceExists ∧
    get_patient_by_id (delete_patient_endpoint dbSample 2).fst 2 = none := by
  constructor
  · exact (delete_patient_blocked_iff_active dbSample 1 patientP1 rfl).1.mpr
      ⟨treatmentT2, by decide, rfl, rfl, by decide⟩
  · exact ((delete_patient_blocked_iff_active dbSample 2 patientP2 rfl).2 (by decide)).2

/- ===== Treatment creation (claim C5) ===== -/

/-- Body of `POST /treatments` (`TreatmentCreate` schema fields). -/
structure TreatmentCreateInput where
  patient_id : Nat
  medication_id : Nat
  dosage : String
  frequency : Nat
  duration_days : Nat
  start_date : Int
  end_date : Int
  instructions : Option String
  notes : Option String
deriving DecidableEq, Repr

/-- The pydantic field validation of `TreatmentBase`/`TreatmentCreate`
    (`app/schemas/treatment.py`): every violated constraint contributes an
    error to the 422 response.  The `validate_duration` cross-check of
    `TreatmentCreate` never fires in the source, because `start_date` and
    `end_date` are declared after `duration_days` and so are absent from
    `values` when it runs; it is therefore not part of the embedded
    behavior. -/
def treatmentCreateErrors (inp : TreatmentCreateInput) : List FieldError :=
  (if inp.dosage.trim = "" then [FieldError.dosageRequired] else []) ++
  (if inp.frequency < 1 ∨ 24 < inp.frequency then [FieldError.frequencyOutOfRange] else []) ++
  (if inp.duration_days < 1 ∨ 3650 < inp.duration_days
    then [FieldError.durationOutOfRange] else []) ++
  (if inp.end_date ≤ inp.start_date then [FieldError.invalidDateRange] else [])

/-- `TreatmentService.medication_exists`. -/
def medication_exists (db : DB) (mid : Nat) : Bool :=
  (db.medications.find? (fun m => m.id == mid)).isSome

/-- `TreatmentService.check_medication_conflicts` is a stub: it queries the
    patient's ACTIVE treatments and then returns None (no conflict)
    unconditionally; the hook is preserved but always reports no
    conflict. -/
def check_medication_conflicts (db : DB) (pid mid : Nat) : Option String :=
  none

/-- `POST /treatments` handler (`app/api/treatments.py`, patient access
    already granted): schema validation, medication existence, the redundant
    date re-check, the (stubbed) conflict check, then
    `TreatmentService.create_treatment` persisting with status ACTIVE.  The
    dosage is stored stripped, as the schema validator returns
    `v.strip()`. -/
def create_treatment_endpoint (db : DB) (inp : TreatmentCreateInput)
    (created_by_id : Nat) : DB × Except ApiError Treatment :=
  match treatmentCreateErrors inp with
  | [] =>
    if !(medication_exists db inp.medication_id) then (db, .error .medicationNotFound)
    else if inp.end_date < inp.start_date then (db, .error .badRequest)
    else
      match check_medication_conflicts db inp.patient_id inp.medication_id with
      | some _ => (db, .error .badRequest)
      | none =>
          let t : Treatment :=
            { id := db.nextTreatmentId, patient_id := inp.patient_id,
              medication_id := inp.medication_id, created_by_id := created_by_id,
              dosage := inp.dosage.trim, frequency := inp.frequency,
              duration_days := inp.duration_days, start_date := inp.start_date,
              end_date := inp.end_date, instructions := inp.instructions,
              notes := inp.notes, status := .active, updated_at := db.now }
          ({ db with treatments := db.treatments ++ [t],
                     nextTreatmentId := db.nextTreatmentId + 1 }, .ok t)
  | e :: es => (db, .error (.validation (e :: es)))

/-- C5: treatment creation succeeds only when start_date < end_date; when
    start_date equals or follows end_date the request fails with the
    InvalidDateRange validation error and the database is unchanged (nothing
    is persisted). -/
theorem create_treatment_requires_date_order (db : DB) (inp : TreatmentCreateInput)
    (uid : Nat) :
    (∀ t : Treatment, (create_treatment_endpoint db inp uid).snd = .ok t →
      inp.start_date < inp.end_date) ∧
    (inp.end_date ≤ inp.start_date →
      (create_treatment_endpoint db inp uid).fst = db ∧
      FieldError.invalidDateRange ∈ treatmentCreateErrors inp ∧
      ∃ errs, (create_treatment_endpoint db inp uid).snd = .error (.validation errs) ∧
        FieldError.invalidDateRange ∈ errs) := by
  constructor
  · intro t hok
    by_cases hd : inp.end_date ≤ inp.start_date
    · exfalso
      have hmem : FieldError.invalidDateRange ∈ treatmentCreateErrors inp := by
        simp [treatmentCreateErrors, hd]
      cases herrs : treatmentCreateErrors inp with
      | nil => rw [herrs] at hmem; cases hmem
      | cons e es =>
        rw [show create_treatment_endpoint db inp uid
            = (db, .error (.validation (e :: es))) from by
          unfold create_treatment_endpoint
          rw [herrs]] at hok
        cases hok
    · omega
  · intro hd
    have hmem : FieldError.invalidDateRange ∈ treatmentCreateErrors inp := by
      simp [treatmentCreateErrors, hd]
    cases herrs : treatmentCreateErrors inp with
    | nil => rw [herrs] at hmem; cases hmem
    | cons e es =>
      have hmem0 : FieldError.invalidDateRange ∈ treatmentCreateErrors inp := hmem
      rw [herrs] at hmem
      have hend : create_treatment_endpoint db inp uid
          = (db, .error (.validation (e :: es))) := by
        unfold create_treatment_endpoint
        rw [herrs]
      rw [hend]
      exact ⟨rfl, hmem, e :: es, rfl, hmem⟩

/-- Inverted-date creation input from the spec's scenario
    (start 2025-01-10, end 2025-01-05, as day ordinals). -/
def invalidDateInput : TreatmentCreateInput :=
  { patient_id := 1, medication_id := 5, dosage := "500mg", frequency := 2,
    duration_days := 6, start_date := 20098, end_date := 20093,
    instructions := none, notes := none }

/-- C5 witness: the inverted-date scenario is rejected with InvalidDateRange
    and persists nothing. -/
theorem create_treatment_requires_date_order_witness :
    (create_treatment_endpoint dbSample invalidDateInput 20).fst = dbSample ∧
    FieldError.invalidDateRange ∈ treatmentCreateErrors invalidDateInput ∧
    ∃ errs, (create_treatment_endpoint dbSample invalidDateInput 20).snd
        = .error (.validation errs) ∧
      FieldError.invalidDateRange ∈ errs :=
  (create_treatment_requires_date_order dbSample invalidDateInput 20).2 (by decide)

/- ===== Treatment partial update (claim C10) ===== -/

/-- `TreatmentUpdate` schema: every field optional; absent fields are
    excluded from the update (`exclude_unset`). -/
structure TreatmentUpdate where
  dosage : Option String := none
  frequency : Option Nat := none
  duration_days : Option Nat := none
  start_date : Option Int := none
  end_date : Option Int := none
  instructions : Option String := none
  notes : Option String := none
  status : Option TreatmentStatus := none
deriving DecidableEq, Repr

/-- Pydantic validation of `TreatmentUpdate`: constraints apply only to the
    fields that are present; the date-order validator fires only when both
    dates are supplied. -/
def treatmentUpdateErrors (u : TreatmentUpdate) : List FieldError :=
  (match u.dosage with
   | some d => if d = "" then [FieldError.dosageRequired] else []
   | none => []) ++
  (match u.frequency with
   | some f => if f < 1 ∨ 24 < f then [FieldError.frequencyOutOfRange] else []
   | none => []) ++
  (match u.duration_days with
   | some d => if d < 1 ∨ 3650 < d then [FieldError.durationOutOfRange] else []
   | none => []) ++
  (match u.start_date, u.end_date with
   | some sd, some ed => if ed ≤ sd then [FieldError.invalidDateRange] else []
   | _, _ => [])

/-- The `for field, value in update_data.items(): setattr(treatment, field,
    value)` loop of `TreatmentService.update_treatment`: each supplied field
    overwrites the row directly; no state-machine side effect runs. -/
def applyTreatmentUpdate (t : Treatment) (u : TreatmentUpdate) : Treatment :=
  { t with
      dosage := u.dosage.getD t.dosage,
      frequency := u.frequency.getD t.frequency,
      duration_days := u.duration_days.getD t.duration_days,
      start_date := u.start_date.getD t.start_date,
      end_date := u.end_date.getD t.end_date,
      instructions := match u.instructions with
        | some s => some s
        | none => t.instructions,
      notes := match u.notes with
        | some s => some s
        | none => t.notes,
      status := u.status.getD t.status }

/-- `TreatmentService.update_treatment`: look up, apply the supplied fields,
    stamp `updated_at`, commit. -/
def update_treatment (db : DB) (tid : Nat) (u : TreatmentUpdate) :
    DB × Option Treatment :=
  match get_treatment_by_id db tid with
  | none => (db, none)
  | some t =>
      (setTreatmentRow db tid
        (fun s => { applyTreatmentUpdate s u with updated_at := db.now }),
        some { applyTreatmentUpdate t u with updated_at := db.now })

/-- `PUT /treatments/{id}` handler: schema validation (422 before the
    handler runs), 404 when absent, the redundant both-dates re-check, then
    the service update. -/
def update_treatment_endpoint (db : DB) (tid : Nat) (u : TreatmentUpdate) :
    DB × Except ApiError Treatment :=
  match treatmentUpdateErrors u with
  | e :: es => (db, .error (.validation (e :: es)))
  | [] =>
    match get_treatment_by_id db tid with
    | none => (db, .error .notFound)
    | some _ =>
      if (match u.start_date, u.end_date with
          | some sd, some ed => decide (ed < sd)
          | _, _ => false)
      then (db, .error .badRequest)
      else
        let r := update_treatment db tid u
        (r.fst, match r.snd with
          | some t2 => .ok t2
          | none => .error .notFound)

/-- C10: the partial-update endpoint accepts a bare status field and writes
    it directly: for every status S and every existing treatment the update
    succeeds and the stored row becomes the old row with status S and a new
    update timestamp — no note is appended and no other field changes — so
    every status is reachable from every other status without going through
    activate/suspend/complete/cancel. -/
theorem update_sets_status_directly (db : DB) (tid : Nat) (t : Treatment)
    (S : TreatmentStatus) (ht : get_treatment_by_id db tid = some t) :
    (update_treatment_endpoint db tid { status := some S }).snd
        = .ok { t with status := S, updated_at := db.now } ∧
    get_treatment_by_id (update_treatment_endpoint db tid { status := some S }).fst tid
        = some { t with status := S, updated_at := db.now } := by
  have herrs : treatmentUpdateErrors { status := some S } = [] := rfl
  constructor
  · unfold update_treatment_endpoint
    rw [herrs, ht]
    simp only [update_treatment, ht]
    rfl
  · unfold update_treatment_endpoint
    rw [herrs, ht]
    simp only [update_treatment, ht, Bool.false_eq_true, if_false]
    have key := get_setTreatmentRow db tid
      (fun s => { applyTreatmentUpdate s { status := some S } with updated_at := db.now })
      (fun s => rfl)
    rw [ht] at key
    exact key.trans rfl

/-- C10 witness: a bare status update moves the COMPLETED sample treatment 1
    straight to SUSPENDED. -/
theorem update_sets_status_directly_witness :
    (update_treatment_endpoint dbSample 1
        { status := some TreatmentStatus.suspended }).snd
      = .ok { treatmentT1 with
              status := TreatmentStatus.suspended
              updated_at := dbSample.now } ∧
    get_treatment_by_id (update_treatment_endpoint dbSample 1
        { status := some TreatmentStatus.suspended }).fst 1
      = some { treatmentT1 with
               status := TreatmentStatus.suspended
               updated_at := dbSample.now } :=
  update_sets_status_directly dbSample 1 treatmentT1 TreatmentStatus.suspended rfl

end MedApi
